import Mathlib

/-!
Verification of the asynchronous job execution and lifecycle subsystem of the
dynamic-mcp-server repository (src/main.js). The definitions below are a shallow
embedding of the job registry, the timeout supervisor, the process runner and
the synchronous/asynchronous dispatch policy. JS `Map` is embedded as an
association list with first-match lookup and replace-or-append insertion, JS
numbers occurring here (exit codes, millisecond budgets) as `Int`/`Nat`, and
`undefined`/`null` as `Option`.
-/

namespace DynamicMcp

/-- TaskResult — `{exitCode, stdout, stderr}` captured from one subprocess run. -/
structure TaskResult where
  exitCode : Int
  stdout : String
  stderr : String
deriving DecidableEq, Repr

/-- The three job status strings used by src/main.js: "running", "completed", "failed". -/
inductive JobStatus where
  | running
  | completed
  | failed
deriving DecidableEq, Repr

/-- The status strings `completed` and `failed` are terminal. -/
def JobStatus.isTerminal : JobStatus → Bool
  | .running => false
  | .completed => true
  | .failed => true

/-- The status string stored in the JS job record. -/
def JobStatus.str : JobStatus → String
  | .running => "running"
  | .completed => "completed"
  | .failed => "failed"

/-- One record of the `jobs` map (src/main.js lines 582-588). The JS record has no
`completedAt`/`timedOut` fields until a finalizer adds them; they are embedded as
`Option String` (`none` = absent) and `Bool` (`false` = absent). -/
structure Job where
  status : JobStatus
  toolName : String
  startedAt : String
  completedAt : Option String
  result : Option TaskResult
  timeoutMs : Int
  timedOut : Bool
deriving DecidableEq, Repr

/-- The process-wide `jobs` map (src/main.js line 99), as an association list. -/
abbrev Registry := List (String × Job)

/-- `jobs.get(id)`: first-match lookup. -/
def jobsGet : Registry → String → Option Job
  | [], _ => none
  | p :: tl, id => if p.1 = id then some p.2 else jobsGet tl id

/-- `jobs.set(id, j)`: replace the entry for `id` if present, else append. -/
def jobsSet : Registry → String → Job → Registry
  | [], id, j => [(id, j)]
  | p :: tl, id, j => if p.1 = id then (id, j) :: tl else p :: jobsSet tl id j

theorem jobsGet_jobsSet_self (r : Registry) (id : String) (j : Job) :
    jobsGet (jobsSet r id j) id = some j := by
  induction r with
  | nil => simp [jobsSet, jobsGet]
  | cons p tl ih =>
    by_cases h : p.1 = id
    · simp [jobsSet, jobsGet, h]
    · simp [jobsSet, jobsGet, h, ih]

theorem jobsGet_jobsSet_ne (r : Registry) (id id' : String) (j : Job) (h : id' ≠ id) :
    jobsGet (jobsSet r id j) id' = jobsGet r id' := by
  have h' : ¬(id = id') := fun hc => h hc.symm
  induction r with
  | nil => simp [jobsSet, jobsGet, h']
  | cons p tl ih =>
    by_cases hp : p.1 = id
    · simp [jobsSet, jobsGet, hp, h']
    · simp only [jobsSet, hp, if_false, jobsGet]
      by_cases hp' : p.1 = id'
      · simp [hp']
      · simp [hp', ih]

/-- `DEFAULT_JOB_TIMEOUT_MS = 20 * 60 * 1000` (src/main.js line 101). -/
def DEFAULT_JOB_TIMEOUT_MS : Int := 20 * 60 * 1000

/-- JS `Number.parseInt(s, 10)`: skip leading whitespace, read an optional sign,
then the longest prefix of decimal digits; `NaN` (here `none`) when no digit is
read. Trailing garbage after the digit run is ignored, as in JS. -/
def jsParseInt10 (s : String) : Option Int :=
  let cs := s.data.dropWhile Char.isWhitespace
  let signed : Int × List Char :=
    match cs with
    | '-' :: t => (-1, t)
    | '+' :: t => (1, t)
    | _ => (1, cs)
  let ds := signed.2.takeWhile Char.isDigit
  if ds.isEmpty then none
  else some (signed.1 * (ds.foldl (fun a c => 10 * a + (c.toNat - 48)) 0 : Nat))

/-- `resolveJobTimeoutMs` (src/main.js lines 183-189): parse the
`DYNAMIC_MCP_JOB_TIMEOUT_MS` environment value (`none` = unset, read as `""`);
return it when it is a finite positive number, else the built-in default.
`Number.isFinite(NaN)` is false, so the `none` parse takes the default branch. -/
def resolveJobTimeoutMs (env : Option String) : Int :=
  match jsParseInt10 (env.getD "") with
  | some n => if 0 < n then n else DEFAULT_JOB_TIMEOUT_MS
  | none => DEFAULT_JOB_TIMEOUT_MS

/-- The timer guard of `startTaskAsync` (src/main.js lines 610-611): a timeout
timer is attached iff the resolved budget is positive. -/
def startTaskAsyncTimerAttached (env : Option String) : Bool :=
  decide (0 < resolveJobTimeoutMs env)

/-- The job record inserted by `startTaskAsync` at creation
(src/main.js lines 582-588): status `running`, `result: null`, no
`completedAt`/`timedOut` fields yet. -/
def createJob (r : Registry) (jobId toolName startedAt : String) (timeoutMs : Int) : Registry :=
  jobsSet r jobId
    { status := .running, toolName := toolName, startedAt := startedAt,
      completedAt := none, result := none, timeoutMs := timeoutMs, timedOut := false }

/-- The synthetic `TaskResult` stored by the timeout handler
(src/main.js lines 622-626). -/
def timeoutResult (timeoutMs : Int) : TaskResult :=
  { exitCode := -1, stdout := "", stderr := "Timed out after " ++ toString timeoutMs ++ "ms" }

/-- The registry effect of the timeout handler body (src/main.js lines 612-637):
if the job is gone or no longer `running`, do nothing; otherwise replace the
whole record with status `failed`, a fresh `completedAt` stamp, the synthetic
timeout result, and `timedOut: true`. (The subprocess SIGTERM/SIGKILL
escalation does not touch the registry and is outside this embedding.) -/
def timeoutHandler (r : Registry) (jobId : String) (timeoutMs : Int) (now : String) : Registry :=
  match jobsGet r jobId with
  | none => r
  | some job =>
    if job.status ≠ .running then r
    else jobsSet r jobId
      { job with
        status := .failed,
        completedAt := some now,
        result := some (timeoutResult timeoutMs),
        timedOut := true }

/-- `finalizeJob` (src/main.js lines 651-664): if the job is gone or no longer
`running` the call is a no-op; otherwise clear the pending timer (no registry
effect) and replace the record with the given terminal status, a `completedAt`
stamp, and the given result. -/
def finalizeJob (r : Registry) (jobId : String) (status : JobStatus) (result : TaskResult)
    (now : String) : Registry :=
  match jobsGet r jobId with
  | none => r
  | some job =>
    if job.status ≠ .running then r
    else jobsSet r jobId
      { job with
        status := status,
        completedAt := some now,
        result := some result }

/-- The natural-completion callback `subprocess.then(...)` (src/main.js
lines 677-682): finalize as `completed` iff `(exitCode ?? -1) === 0`, with the
`?? -1 / ?? "" / ?? ""` defaults applied to the captured streams. -/
def subprocessThenHandler (r : Registry) (jobId : String) (exitCode : Option Int)
    (stdout stderr : Option String) (now : String) : Registry :=
  finalizeJob r jobId (if exitCode.getD (-1) = 0 then .completed else .failed)
    { exitCode := exitCode.getD (-1), stdout := stdout.getD "", stderr := stderr.getD "" } now

/-- The subprocess-error callback `subprocess.catch(...)` (src/main.js
lines 683-685): finalize as `failed` with `{-1, "", error.message}`. -/
def subprocessCatchHandler (r : Registry) (jobId : String) (errMsg now : String) : Registry :=
  finalizeJob r jobId .failed { exitCode := -1, stdout := "", stderr := errMsg } now

/-- One registry mutation of the job subsystem: job creation (with a fresh
identifier, which `generateJobId`'s strictly increasing counter guarantees),
the timeout handler, the natural-completion callback, or the subprocess-error
callback. These are the only writers of `jobs` in src/main.js. -/
inductive Step : Registry → Registry → Prop where
  | create (r : Registry) (jobId toolName startedAt : String) (timeoutMs : Int)
      (fresh : jobsGet r jobId = none) :
      Step r (createJob r jobId toolName startedAt timeoutMs)
  | timeout (r : Registry) (jobId : String) (timeoutMs : Int) (now : String) :
      Step r (timeoutHandler r jobId timeoutMs now)
  | natComplete (r : Registry) (jobId : String) (exitCode : Option Int)
      (stdout stderr : Option String) (now : String) :
      Step r (subprocessThenHandler r jobId exitCode stdout stderr now)
  | natError (r : Registry) (jobId errMsg now : String) :
      Step r (subprocessCatchHandler r jobId errMsg now)

/-- JS number-to-string for a non-negative integer (as in the template literal
of `generateJobId`): the decimal digit string, "0" for zero. -/
def jsNatToString (n : Nat) : String :=
  if n = 0 then "0"
  else ⟨((Nat.digits 10 n).map Nat.digitChar).reverse⟩

/-- `generateJobId` (src/main.js lines 107-109): the template literal
`job_${Date.now()}_${++jobIdCounter}`. `now` is the millisecond clock reading
and `counter` the already-incremented value of `jobIdCounter`. -/
def generateJobId (now counter : Nat) : String :=
  "job_" ++ jsNatToString now ++ "_" ++ jsNatToString counter

/-- The characters of a job id after its last underscore, i.e. the counter
field of `generateJobId`. -/
def trailingField (cs : List Char) : List Char :=
  ((cs.reverse).takeWhile (fun c => !(c = '_' : Bool))).reverse

theorem digitChar_inj_lt : ∀ a, a < 10 → ∀ b, b < 10 →
    Nat.digitChar a = Nat.digitChar b → a = b := by decide

theorem digitChar_ne_underscore : ∀ a, a < 10 → Nat.digitChar a ≠ '_' := by decide

theorem jsNatToString_no_underscore (n : Nat) :
    ∀ c ∈ (jsNatToString n).data, c ≠ '_' := by
  intro c hc
  unfold jsNatToString at hc
  by_cases h : n = 0
  · simp only [h, if_true] at hc
    have : c = '0' := by simpa using hc
    subst this; decide
  · simp only [h, if_false] at hc
    simp only [String.data, List.mem_reverse, List.mem_map] at hc
    obtain ⟨d, hd, rfl⟩ := hc
    exact digitChar_ne_underscore d (Nat.digits_lt_base (by norm_num) hd)

theorem map_digitChar_inj : ∀ (l1 l2 : List Nat), (∀ x ∈ l1, x < 10) → (∀ x ∈ l2, x < 10) →
    l1.map Nat.digitChar = l2.map Nat.digitChar → l1 = l2 := by
  intro l1
  induction l1 with
  | nil =>
    intro l2 _ _ h
    cases l2 with
    | nil => rfl
    | cons b t => simp at h
  | cons a t ih =>
    intro l2 h1 h2 h
    cases l2 with
    | nil => simp at h
    | cons b t2 =>
      simp only [List.map_cons, List.cons.injEq] at h
      have ha : a < 10 := h1 a (List.mem_cons_self a t)
      have hb : b < 10 := h2 b (List.mem_cons_self b t2)
      have hab := digitChar_inj_lt a ha b hb h.1
      have ht := ih t2 (fun x hx => h1 x (List.mem_cons_of_mem a hx))
        (fun x hx => h2 x (List.mem_cons_of_mem b hx)) h.2
      rw [hab, ht]

theorem jsNatToString_data_inj (n m : Nat)
    (h : (jsNatToString n).data = (jsNatToString m).data) : n = m := by
  unfold jsNatToString at h
  by_cases hn : n = 0 <;> by_cases hm : m = 0
  · rw [hn, hm]
  · exfalso
    simp only [hn, if_true, if_neg hm] at h
    have hmap : (Nat.digits 10 m).map Nat.digitChar = ['0'] := by
      have := congrArg List.reverse h
      simp only [String.data, List.reverse_reverse] at this
      simpa using this.symm
    have hd : Nat.digits 10 m = [0] := by
      apply map_digitChar_inj _ [0]
        (fun x hx => Nat.digits_lt_base (by norm_num) hx) (by simp)
      simpa using hmap
    have : m = 0 := by
      have := Nat.ofDigits_digits 10 m
      rw [hd] at this
      simpa [Nat.ofDigits] using this.symm
    exact hm this
  · exfalso
    simp only [hm, if_true, if_neg hn] at h
    have hmap : (Nat.digits 10 n).map Nat.digitChar = ['0'] := by
      have := congrArg List.reverse h
      simp only [String.data, List.reverse_reverse] at this
      simpa using this
    have hd : Nat.digits 10 n = [0] := by
      apply map_digitChar_inj _ [0]
        (fun x hx => Nat.digits_lt_base (by norm_num) hx) (by simp)
      simpa using hmap
    have : n = 0 := by
      have := Nat.ofDigits_digits 10 n
      rw [hd] at this
      simpa [Nat.ofDigits] using this.symm
    exact hn this
  · simp only [if_neg hn, if_neg hm] at h
    have hmap : (Nat.digits 10 n).map Nat.digitChar = (Nat.digits 10 m).map Nat.digitChar := by
      have := congrArg List.reverse h
      simpa [String.data, List.reverse_reverse] using this
    have hd := map_digitChar_inj _ _
      (fun x hx => Nat.digits_lt_base (by norm_num) hx)
      (fun x hx => Nat.digits_lt_base (by norm_num) hx) hmap
    have := congrArg (Nat.ofDigits 10) hd
    rwa [Nat.ofDigits_digits, Nat.ofDigits_digits] at this

theorem takeWhile_until_stop {α : Type} (p : α → Bool) :
    ∀ (l : List α) (a : α) (r : List α), (∀ x ∈ l, p x = true) → p a = false →
    (l ++ a :: r).takeWhile p = l := by
  intro l
  induction l with
  | nil =>
    intro a r _ ha
    simp [List.takeWhile_cons, ha]
  | cons x xs ih =>
    intro a r hl ha
    have hx : p x = true := hl x (List.mem_cons_self x xs)
    simp only [List.cons_append, List.takeWhile_cons, hx, if_true]
    rw [ih a r (fun y hy => hl y (List.mem_cons_of_mem x hy)) ha]

theorem trailingField_generateJobId (t c : Nat) :
    trailingField (generateJobId t c).data = (jsNatToString c).data := by
  unfold generateJobId trailingField
  have hdata : ("job_" ++ jsNatToString t ++ "_" ++ jsNatToString c).data
      = "job_".data ++ (jsNatToString t).data ++ ['_'] ++ (jsNatToString c).data := by
    simp [String.data_append]
  rw [hdata]
  have hrev : ("job_".data ++ (jsNatToString t).data ++ ['_'] ++ (jsNatToString c).data).reverse
      = (jsNatToString c).data.reverse
        ++ '_' :: ((jsNatToString t).data.reverse ++ "job_".data.reverse) := by
    simp [List.reverse_append]
  rw [hrev]
  rw [takeWhile_until_stop _ _ _ _
    (fun x hx => by
      have hmem : x ∈ (jsNatToString c).data := List.mem_reverse.mp hx
      have := jsNatToString_no_underscore c x hmem
      simp [this])
    (by simp)]
  simp

/-- The outcome of awaiting the `execa` subprocess promise: either it resolves
with a record whose `exitCode`/`stdout`/`stderr` may each be missing
(`reject: false` makes non-zero exits resolve rather than reject), or an
exception is thrown while spawning/awaiting, carrying a message. -/
inductive ExecaOutcome where
  | ok (exitCode : Option Int) (stdout : Option String) (stderr : Option String)
  | err (message : String)
deriving DecidableEq, Repr

/-- `executeTask` (src/main.js lines 551-568): await the subprocess; on a
normal resolution apply the `?? -1 / ?? "" / ?? ""` defaults; on a thrown
exception return `{exitCode: -1, stdout: "", stderr: error.message}`. The
return type `TaskResult` (no error channel) embeds the fact that the runner
never lets an error propagate to its caller. -/
def executeTask : ExecaOutcome → TaskResult
  | .ok exitCode stdout stderr =>
    { exitCode := exitCode.getD (-1), stdout := stdout.getD "", stderr := stderr.getD "" }
  | .err message => { exitCode := -1, stdout := "", stderr := message }

/-- `resolveToolAsyncFlag` (src/main.js lines 536-541): the tool-level `async`
field wins when it is a boolean (`some`), else the server default applies. -/
def resolveToolAsyncFlag (toolAsync : Option Bool) (serverAsync : Bool) : Bool :=
  match toolAsync with
  | some b => b
  | none => serverAsync

/-- The `message` field of the async invocation response
(src/main.js line 785). -/
def asyncStartMessage (jobId : String) : String :=
  "Job started. Use \x27check-job-status\x27 with jobId \x27" ++ jobId
    ++ "\x27 to check progress."

/-- The `structuredContent`/`isError` of a tool invocation response
(src/main.js lines 782-791 for the async branch, 818-822 for the sync one). -/
inductive ToolResponse where
  | sync (structuredContent : TaskResult) (isError : Bool)
  | asyncStarted (jobId : String) (status : String) (message : String) (isError : Bool)
deriving DecidableEq, Repr

/-- The dispatch made by `registerConfiguredTools` (src/main.js lines 742-828):
the resolved async flag selects the handler. The async handler (lines 765-792)
creates a `running` Job under a fresh id and answers immediately — its response
does not consult `outcome`, the eventual subprocess result. The sync handler
(lines 798-823) awaits `executeTask` and answers with its result, marked as an
error exactly when `exitCode !== 0`; it never touches the `jobs` map. Prompt
building and logging are out of core scope and omitted. -/
def invokeTool (toolAsync : Option Bool) (toolName : String) (serverAsync : Bool)
    (outcome : ExecaOutcome) (r : Registry) (jobId now : String) (timeoutMs : Int) :
    ToolResponse × Registry :=
  if resolveToolAsyncFlag toolAsync serverAsync then
    (ToolResponse.asyncStarted jobId "running" (asyncStartMessage jobId) false,
      createJob r jobId toolName now timeoutMs)
  else
    let result := executeTask outcome
    (ToolResponse.sync result (decide (result.exitCode ≠ 0)), r)

/-- The `structuredContent` and `isError` of the `check-job-status` response
(src/main.js lines 889-948). The not-found branch builds `{jobId, status:
"failed", error}` (no snapshot fields); the found branch builds the snapshot
`{jobId, status, toolName, startedAt, completedAt, result}` (no `error`).
Absent fields are `none`. -/
structure StatusResponse where
  jobId : String
  status : String
  error : Option String
  toolName : Option String
  startedAt : Option String
  completedAt : Option String
  result : Option TaskResult
  isError : Bool
deriving DecidableEq, Repr

/-- The `check-job-status` handler (src/main.js lines 889-948): look the id up
in `jobs`; unknown ids get an error-shaped `failed` response naming the id with
`isError: true`; known ids get the job snapshot with `isError` true iff the
job failed. A total function: the handler never throws. -/
def checkJobStatus (r : Registry) (jobId : String) : StatusResponse :=
  match jobsGet r jobId with
  | none =>
    { jobId := jobId, status := "failed", error := some ("Job not found: " ++ jobId),
      toolName := none, startedAt := none, completedAt := none, result := none,
      isError := true }
  | some job =>
    { jobId := jobId, status := job.status.str, error := none,
      toolName := some job.toolName, startedAt := some job.startedAt,
      completedAt := job.completedAt, result := job.result,
      isError := decide (job.status = .failed) }

theorem JobStatus.isTerminal_iff (s : JobStatus) : s.isTerminal = true ↔ s ≠ .running := by
  cases s <;> simp [JobStatus.isTerminal]

theorem finalizeJob_preserves_settled (r : Registry) (jid : String) (st : JobStatus)
    (res : TaskResult) (now id : String) (job : Job)
    (h : jobsGet r id = some job) (hterm : job.status ≠ .running) :
    jobsGet (finalizeJob r jid st res now) id = some job := by
  unfold finalizeJob
  cases hj : jobsGet r jid with
  | none => exact h
  | some j2 =>
    dsimp only
    by_cases hs : j2.status = .running
    · rw [if_neg (fun hC => hC hs)]
      by_cases hid : id = jid
      · subst hid; rw [h] at hj; cases hj; exact absurd hs hterm
      · rw [jobsGet_jobsSet_ne _ _ _ _ hid]; exact h
    · rw [if_pos hs]; exact h

theorem timeoutHandler_preserves_settled (r : Registry) (jid : String) (tms : Int)
    (now id : String) (job : Job)
    (h : jobsGet r id = some job) (hterm : job.status ≠ .running) :
    jobsGet (timeoutHandler r jid tms now) id = some job := by
  unfold timeoutHandler
  cases hj : jobsGet r jid with
  | none => exact h
  | some j2 =>
    dsimp only
    by_cases hs : j2.status = .running
    · rw [if_neg (fun hC => hC hs)]
      by_cases hid : id = jid
      · subst hid; rw [h] at hj; cases hj; exact absurd hs hterm
      · rw [jobsGet_jobsSet_ne _ _ _ _ hid]; exact h
    · rw [if_pos hs]; exact h

theorem finalizeJob_noop_of_settled (r : Registry) (jid : String) (st : JobStatus)
    (res : TaskResult) (now : String) (job : Job)
    (h : jobsGet r jid = some job) (hterm : job.status ≠ .running) :
    finalizeJob r jid st res now = r := by
  unfold finalizeJob
  rw [h]
  dsimp only
  rw [if_pos hterm]

theorem finalizeJob_change (r : Registry) (jid : String) (st : JobStatus)
    (res : TaskResult) (now id : String) (job job' : Job)
    (h : jobsGet r id = some job)
    (h' : jobsGet (finalizeJob r jid st res now) id = some job')
    (hne : job' ≠ job) : job.status = .running ∧ job'.status = st := by
  unfold finalizeJob at h'
  cases hj : jobsGet r jid with
  | none => rw [hj] at h'; rw [h] at h'; cases h'; exact absurd rfl hne
  | some j2 =>
    rw [hj] at h'
    dsimp only at h'
    by_cases hs : j2.status = .running
    · rw [if_neg (fun hC => hC hs)] at h'
      by_cases hid : id = jid
      · subst hid
        rw [h] at hj; cases hj
        rw [jobsGet_jobsSet_self] at h'
        cases h'
        exact ⟨hs, rfl⟩
      · rw [jobsGet_jobsSet_ne _ _ _ _ hid, h] at h'
        cases h'; exact absurd rfl hne
    · rw [if_pos hs, h] at h'; cases h'; exact absurd rfl hne

theorem timeoutHandler_change (r : Registry) (jid : String) (tms : Int)
    (now id : String) (job job' : Job)
    (h : jobsGet r id = some job)
    (h' : jobsGet (timeoutHandler r jid tms now) id = some job')
    (hne : job' ≠ job) : job.status = .running ∧ job'.status = .failed := by
  unfold timeoutHandler at h'
  cases hj : jobsGet r jid with
  | none => rw [hj] at h'; rw [h] at h'; cases h'; exact absurd rfl hne
  | some j2 =>
    rw [hj] at h'
    dsimp only at h'
    by_cases hs : j2.status = .running
    · rw [if_neg (fun hC => hC hs)] at h'
      by_cases hid : id = jid
      · subst hid
        rw [h] at hj; cases hj
        rw [jobsGet_jobsSet_self] at h'
        cases h'
        exact ⟨hs, rfl⟩
      · rw [jobsGet_jobsSet_ne _ _ _ _ hid, h] at h'
        cases h'; exact absurd rfl hne
    · rw [if_pos hs, h] at h'; cases h'; exact absurd rfl hne

theorem step_change (r r' : Registry) (hstep : Step r r') (id : String) (job job' : Job)
    (h : jobsGet r id = some job) (h' : jobsGet r' id = some job') (hne : job' ≠ job) :
    job.status = .running ∧ (job'.status = .completed ∨ job'.status = .failed) := by
  cases hstep with
  | create jid toolName startedAt tms fresh =>
    by_cases hid : id = jid
    · subst hid; rw [h] at fresh; cases fresh
    · unfold createJob at h'
      rw [jobsGet_jobsSet_ne _ _ _ _ hid, h] at h'
      cases h'; exact absurd rfl hne
  | timeout jid tms now =>
    have := timeoutHandler_change r jid tms now id job job' h h' hne
    exact ⟨this.1, Or.inr this.2⟩
  | natComplete jid exitCode stdout stderr now =>
    unfold subprocessThenHandler at h'
    have := finalizeJob_change r jid _ _ now id job job' h h' hne
    refine ⟨this.1, ?_⟩
    rcases this with ⟨-, h2⟩
    by_cases hz : exitCode.getD (-1) = 0
    · rw [if_pos hz] at h2; exact Or.inl h2
    · rw [if_neg hz] at h2; exact Or.inr h2
  | natError jid errMsg now =>
    unfold subprocessCatchHandler at h'
    have := finalizeJob_change r jid _ _ now id job job' h h' hne
    exact ⟨this.1, Or.inr this.2⟩

theorem step_preserves_settled (r r' : Registry) (hstep : Step r r') (id : String)
    (job : Job) (h : jobsGet r id = some job) (hterm : job.status ≠ .running) :
    jobsGet r' id = some job := by
  cases hstep with
  | create jid toolName startedAt tms fresh =>
    by_cases hid : id = jid
    · subst hid; rw [h] at fresh; cases fresh
    · unfold createJob
      rw [jobsGet_jobsSet_ne _ _ _ _ hid]; exact h
  | timeout jid tms now => exact timeoutHandler_preserves_settled r jid tms now id job h hterm
  | natComplete jid exitCode stdout stderr now =>
    exact finalizeJob_preserves_settled r jid _ _ now id job h hterm
  | natError jid errMsg now =>
    exact finalizeJob_preserves_settled r jid _ _ now id job h hterm

/-- Invariant: a job record field `result` is `null` exactly while its status is
`running` (the property of C8, as a predicate on registries). -/
def ResultInv (r : Registry) : Prop :=
  ∀ id job, jobsGet r id = some job → (job.result = none ↔ job.status = .running)

theorem resultInv_jobsSet (r : Registry) (inv : ResultInv r) (id : String) (j : Job)
    (hj : j.result = none ↔ j.status = .running) : ResultInv (jobsSet r id j) := by
  intro id' job' h'
  by_cases hid : id' = id
  · subst hid; rw [jobsGet_jobsSet_self] at h'; cases h'; exact hj
  · rw [jobsGet_jobsSet_ne _ _ _ _ hid] at h'; exact inv _ _ h'

theorem resultInv_finalizeJob (r : Registry) (inv : ResultInv r) (jid : String)
    (st : JobStatus) (res : TaskResult) (now : String) (hst : st ≠ .running) :
    ResultInv (finalizeJob r jid st res now) := by
  unfold finalizeJob
  cases hj : jobsGet r jid with
  | none => exact inv
  | some j2 =>
    dsimp only
    by_cases hs : j2.status = .running
    · rw [if_neg (fun hC => hC hs)]
      exact resultInv_jobsSet r inv jid _ (by simp [hst])
    · rw [if_pos hs]; exact inv

theorem step_preserves_resultInv (r r' : Registry) (inv : ResultInv r) (hstep : Step r r') :
    ResultInv r' := by
  cases hstep with
  | create jid toolName startedAt tms fresh =>
    exact resultInv_jobsSet r inv jid _ (by simp)
  | timeout jid tms now =>
    unfold timeoutHandler
    cases hj : jobsGet r jid with
    | none => exact inv
    | some j2 =>
      dsimp only
      by_cases hs : j2.status = .running
      · rw [if_neg (fun hC => hC hs)]
        exact resultInv_jobsSet r inv jid _ (by simp)
      · rw [if_pos hs]; exact inv
  | natComplete jid exitCode stdout stderr now =>
    unfold subprocessThenHandler
    apply resultInv_finalizeJob r inv
    by_cases hz : exitCode.getD (-1) = 0
    · rw [if_pos hz]; simp
    · rw [if_neg hz]; simp
  | natError jid errMsg now =>
    unfold subprocessCatchHandler
    exact resultInv_finalizeJob r inv jid JobStatus.failed _ now (by simp)


/-! ### Claim theorems -/

/-- C1: a Job transitions only from `running` to `completed` or `failed`, exactly
once, and only the first finalizer wins: any single registry step that changes a
record changes it from `running` to a terminal status, and once a record is
terminal no sequence of further steps (timeout handler, natural-completion
callback, subprocess-error callback, creations) mutates it, so an observed
status never regresses from terminal to `running`. -/
theorem job_finalized_at_most_once :
    (∀ r r', Step r r' → ∀ id job job', jobsGet r id = some job →
      jobsGet r' id = some job' → job' ≠ job →
      job.status = .running ∧ (job'.status = .completed ∨ job'.status = .failed)) ∧
    (∀ r r', Relation.ReflTransGen Step r r' → ∀ id job, jobsGet r id = some job →
      job.status.isTerminal = true → jobsGet r' id = some job) := by
  constructor
  · exact fun r r' hstep id job job' h h' hne => step_change r r' hstep id job job' h h' hne
  · intro r r' hsteps id job h hterm
    induction hsteps with
    | refl => exact h
    | tail _ hstep ih =>
      exact step_preserves_settled _ _ hstep id job ih ((JobStatus.isTerminal_iff _).mp hterm)

/-- A terminal (`failed`) job record used to witness terminal-state persistence. -/
def settledJob : Job :=
  { status := .failed, toolName := "t", startedAt := "s1", completedAt := some "s2",
    result := some { exitCode := -1, stdout := "", stderr := "boom" }, timeoutMs := 5,
    timedOut := true }

theorem job_finalized_at_most_once_witness :
    jobsGet (timeoutHandler [("j", settledJob)] "j" 5 "s3") "j" = some settledJob :=
  job_finalized_at_most_once.2 [("j", settledJob)] _
    (Relation.ReflTransGen.single (Step.timeout [("j", settledJob)] "j" 5 "s3"))
    "j" settledJob (by simp [jobsGet]) rfl

/-- C2: when the timeout fires while the job is still `running`, the handler
stores status `failed`, `timedOut = true`, a `completedAt` stamp, and the
synthetic result `{exitCode: -1, stdout: "", stderr: "Timed out after <ms>ms"}`;
afterwards the natural completion of the same subprocess leaves the registry
untouched. -/
theorem timeout_finalizes_running_job (r : Registry) (id : String) (tms : Int)
    (now : String) (job : Job) (h : jobsGet r id = some job)
    (hrun : job.status = .running) :
    jobsGet (timeoutHandler r id tms now) id = some
      { job with
        status := .failed,
        completedAt := some now,
        result := some
          { exitCode := -1,
            stdout := "",
            stderr := "Timed out after " ++ toString tms ++ "ms" },
        timedOut := true } ∧
    ∀ e o s now2,
      subprocessThenHandler (timeoutHandler r id tms now) id e o s now2
        = timeoutHandler r id tms now := by
  have hstore : jobsGet (timeoutHandler r id tms now) id = some
      { job with
        status := .failed,
        completedAt := some now,
        result := some
          { exitCode := -1,
            stdout := "",
            stderr := "Timed out after " ++ toString tms ++ "ms" },
        timedOut := true } := by
    unfold timeoutHandler
    rw [h]
    dsimp only
    rw [if_neg (fun hC => hC hrun)]
    exact jobsGet_jobsSet_self r id _
  refine ⟨hstore, fun e o s now2 => ?_⟩
  unfold subprocessThenHandler
  exact finalizeJob_noop_of_settled _ id _ _ now2 _ hstore (by simp)

/-- A `running` job record used to exercise the timeout path. -/
def runningJob : Job :=
  { status := .running, toolName := "t", startedAt := "s1", completedAt := none,
    result := none, timeoutMs := 10, timedOut := false }

theorem timeout_finalizes_running_job_witness :
    jobsGet (timeoutHandler [("j", runningJob)] "j" 10 "s2") "j" = some
      { runningJob with
        status := .failed,
        completedAt := some "s2",
        result := some
          { exitCode := -1,
            stdout := "",
            stderr := "Timed out after " ++ toString (10 : Int) ++ "ms" },
        timedOut := true } ∧
    subprocessThenHandler (timeoutHandler [("j", runningJob)] "j" 10 "s2") "j"
        (some 0) (some "late") none "s3"
      = timeoutHandler [("j", runningJob)] "j" 10 "s2" :=
  ⟨(timeout_finalizes_running_job [("j", runningJob)] "j" 10 "s2" runningJob
      (by simp [jobsGet]) rfl).1,
   (timeout_finalizes_running_job [("j", runningJob)] "j" 10 "s2" runningJob
      (by simp [jobsGet]) rfl).2 (some 0) (some "late") none "s3"⟩

/-- C3: the dispatch path is selected by the resolved async flag — the tool-level
flag when it is a boolean, else the server default. With the flag resolved
`false` the invocation returns the awaited `executeTask` result directly,
marked as an error iff `exitCode != 0`; with the flag resolved `true` it
returns a `{jobId, status: "running", message}` handle whose content is
independent of the eventual subprocess outcome. -/
theorem dispatch_selected_by_resolved_async_flag (toolAsync : Option Bool)
    (toolName : String) (serverAsync : Bool) (outcome : ExecaOutcome) (r : Registry)
    (jobId now : String) (tms : Int) :
    (∀ b, toolAsync = some b → resolveToolAsyncFlag toolAsync serverAsync = b) ∧
    (toolAsync = none → resolveToolAsyncFlag toolAsync serverAsync = serverAsync) ∧
    (resolveToolAsyncFlag toolAsync serverAsync = false →
      (invokeTool toolAsync toolName serverAsync outcome r jobId now tms).1
        = ToolResponse.sync (executeTask outcome)
            (decide ((executeTask outcome).exitCode ≠ 0))) ∧
    (resolveToolAsyncFlag toolAsync serverAsync = true →
      (invokeTool toolAsync toolName serverAsync outcome r jobId now tms).1
        = ToolResponse.asyncStarted jobId "running" (asyncStartMessage jobId) false ∧
      ∀ outcome2,
        (invokeTool toolAsync toolName serverAsync outcome2 r jobId now tms).1
          = (invokeTool toolAsync toolName serverAsync outcome r jobId now tms).1) := by
  refine ⟨?_, ?_, ?_, ?_⟩
  · intro b hb; rw [hb]; rfl
  · intro hb; rw [hb]; rfl
  · intro hflag; simp [invokeTool, hflag]
  · intro hflag
    constructor
    · simp [invokeTool, hflag]
    · intro outcome2; simp [invokeTool, hflag]

theorem dispatch_selected_by_resolved_async_flag_witness :
    (invokeTool (some false) "t" true (ExecaOutcome.ok (some 2) (some "out") none)
        [] "j1" "s1" 10).1
      = ToolResponse.sync { exitCode := 2, stdout := "out", stderr := "" } true ∧
    (invokeTool (some true) "t" false (ExecaOutcome.ok (some 2) (some "out") none)
        [] "j1" "s1" 10).1
      = ToolResponse.asyncStarted "j1" "running" (asyncStartMessage "j1") false :=
  ⟨(dispatch_selected_by_resolved_async_flag (some false) "t" true
      (ExecaOutcome.ok (some 2) (some "out") none) [] "j1" "s1" 10).2.2.1 rfl,
   ((dispatch_selected_by_resolved_async_flag (some true) "t" false
      (ExecaOutcome.ok (some 2) (some "out") none) [] "j1" "s1" 10).2.2.2 rfl).1⟩

/-- C4 counterexample: with the environment override set to "0" (or a negative
value), the resolved budget is the 20-minute default, not a disabled
supervisor — the `timeoutMs > 0` guard still attaches the timer, so the claim
"zero or negative override disables the supervisor / no timer is attached" is
false on the code. -/
theorem zero_override_still_attaches_timer :
    resolveJobTimeoutMs (some "0") = 1200000 ∧
    startTaskAsyncTimerAttached (some "0") = true ∧
    resolveJobTimeoutMs (some "-5") = 1200000 ∧
    startTaskAsyncTimerAttached (some "-5") = true := by
  refine ⟨?_, ?_, ?_, ?_⟩ <;> decide

/-- C4 (amended): the timer guard disables the supervisor only for a
non-positive resolved budget, and `resolveJobTimeoutMs` never produces one: a
zero-or-negative environment override falls back to the 20-minute default, so
every async job gets a timeout timer attached. -/
theorem timer_always_attached (env : Option String) :
    0 < resolveJobTimeoutMs env ∧
    startTaskAsyncTimerAttached env = true ∧
    (∀ n : Int, jsParseInt10 (env.getD "") = some n → n ≤ 0 →
      resolveJobTimeoutMs env = DEFAULT_JOB_TIMEOUT_MS) := by
  have hpos : 0 < resolveJobTimeoutMs env := by
    unfold resolveJobTimeoutMs
    cases hp : jsParseInt10 (env.getD "") with
    | none => decide
    | some n =>
      dsimp only
      by_cases hn : 0 < n
      · rwa [if_pos hn]
      · rw [if_neg hn]; decide
  refine ⟨hpos, ?_, ?_⟩
  · unfold startTaskAsyncTimerAttached
    exact decide_eq_true hpos
  · intro n hp hn
    unfold resolveJobTimeoutMs
    rw [hp]
    dsimp only
    rw [if_neg (by omega)]

theorem timer_always_attached_witness :
    resolveJobTimeoutMs (some "-7") = DEFAULT_JOB_TIMEOUT_MS ∧
    startTaskAsyncTimerAttached (some "-7") = true :=
  ⟨(timer_always_attached (some "-7")).2.2 (-7) (by decide) (by decide),
   (timer_always_attached (some "-7")).2.1⟩

/-- C5: `resolveJobTimeoutMs` returns the environment override when it parses
to a positive integer, and the built-in default of 20 minutes (1,200,000 ms)
when the parse is non-positive, non-numeric, or the variable is absent. -/
theorem resolve_job_timeout_env_override (env : Option String) :
    (∀ n : Int, jsParseInt10 (env.getD "") = some n → 0 < n →
      resolveJobTimeoutMs env = n) ∧
    (∀ n : Int, jsParseInt10 (env.getD "") = some n → ¬0 < n →
      resolveJobTimeoutMs env = DEFAULT_JOB_TIMEOUT_MS) ∧
    (jsParseInt10 (env.getD "") = none →
      resolveJobTimeoutMs env = DEFAULT_JOB_TIMEOUT_MS) ∧
    DEFAULT_JOB_TIMEOUT_MS = 1200000 ∧
    (env = none → resolveJobTimeoutMs env = DEFAULT_JOB_TIMEOUT_MS) := by
  refine ⟨?_, ?_, ?_, by decide, ?_⟩
  · intro n hp hn
    unfold resolveJobTimeoutMs
    rw [hp]
    dsimp only
    rw [if_pos hn]
  · intro n hp hn
    unfold resolveJobTimeoutMs
    rw [hp]
    dsimp only
    rw [if_neg hn]
  · intro hp
    unfold resolveJobTimeoutMs
    rw [hp]
  · intro he
    subst he
    decide

theorem resolve_job_timeout_env_override_witness :
    resolveJobTimeoutMs (some "500") = 500 ∧
    resolveJobTimeoutMs (some "0") = DEFAULT_JOB_TIMEOUT_MS ∧
    resolveJobTimeoutMs (some "abc") = DEFAULT_JOB_TIMEOUT_MS ∧
    resolveJobTimeoutMs none = DEFAULT_JOB_TIMEOUT_MS :=
  ⟨(resolve_job_timeout_env_override (some "500")).1 500 (by decide) (by decide),
   (resolve_job_timeout_env_override (some "0")).2.1 0 (by decide) (by decide),
   (resolve_job_timeout_env_override (some "abc")).2.2.1 (by decide),
   (resolve_job_timeout_env_override none).2.2.2.2 rfl⟩

/-- C6: the process runner always produces a `TaskResult` (its return type has
no error channel): a thrown exception becomes `{exitCode: -1, stdout: "",
stderr: <message>}`, and a missing `exitCode`, `stdout` or `stderr` on a normal
resolution maps to `-1`, `""` and `""` respectively. -/
theorem process_runner_never_raises :
    (∀ message, executeTask (ExecaOutcome.err message)
      = { exitCode := -1, stdout := "", stderr := message }) ∧
    (∀ e o s, executeTask (ExecaOutcome.ok e o s)
      = { exitCode := e.getD (-1), stdout := o.getD "", stderr := s.getD "" }) ∧
    executeTask (ExecaOutcome.ok none none none)
      = { exitCode := -1, stdout := "", stderr := "" } :=
  ⟨fun _ => rfl, fun _ _ _ => rfl, rfl⟩

/-- C7: the `check-job-status` handler is a total function of the registry and
the queried id: an id absent from the registry yields the error-shaped
not-found response (status "failed", message naming the id, `isError: true`),
and a present id yields the job snapshot with `isError` true iff the job
failed. -/
theorem check_job_status_total_lookup (r : Registry) (id : String) :
    (jobsGet r id = none → checkJobStatus r id =
      { jobId := id, status := "failed", error := some ("Job not found: " ++ id),
        toolName := none, startedAt := none, completedAt := none, result := none,
        isError := true }) ∧
    (∀ job, jobsGet r id = some job → checkJobStatus r id =
      { jobId := id, status := job.status.str, error := none,
        toolName := some job.toolName, startedAt := some job.startedAt,
        completedAt := job.completedAt, result := job.result,
        isError := decide (job.status = .failed) }) := by
  constructor
  · intro h; unfold checkJobStatus; rw [h]
  · intro job h; unfold checkJobStatus; rw [h]

theorem check_job_status_total_lookup_witness :
    checkJobStatus [] "nope" =
      { jobId := "nope", status := "failed",
        error := some ("Job not found: " ++ "nope"),
        toolName := none, startedAt := none, completedAt := none, result := none,
        isError := true } ∧
    checkJobStatus [("j", runningJob)] "j" =
      { jobId := "j", status := "running", error := none,
        toolName := some "t", startedAt := some "s1",
        completedAt := none, result := none, isError := false } :=
  ⟨(check_job_status_total_lookup [] "nope").1 rfl,
   (check_job_status_total_lookup [("j", runningJob)] "j").2 runningJob
     (by simp [jobsGet])⟩

/-- C8: at creation a registry entry has `result = null` and status `running`,
and every finalization path installs a non-null result together with a terminal
status, so in every reachable registry `result` is `null` iff the status is
`running` — true of the empty registry and preserved by every step. -/
theorem result_null_iff_running :
    ResultInv [] ∧
    (∀ r r', ResultInv r → Relation.ReflTransGen Step r r' → ResultInv r') := by
  constructor
  · intro id job h; cases h
  · intro r r' inv hsteps
    induction hsteps with
    | refl => exact inv
    | tail _ hstep ih => exact step_preserves_resultInv _ _ ih hstep

theorem result_null_iff_running_witness :
    ResultInv (createJob [] "j" "t" "s1" 1200000) :=
  result_null_iff_running.2 [] _ result_null_iff_running.1
    (Relation.ReflTransGen.single (Step.create [] "j" "t" "s1" 1200000 rfl))

/-- C9: distinct counter values give distinct job identifiers regardless of the
clock readings (the counter is the decimal field after the last underscore, and
both decimal fields are underscore-free), so two jobs created in the same
millisecond still get distinct ids; since `jobIdCounter` only ever increments,
the i-th and j-th creations of a process carry counters `i+1 ≠ j+1` and an id
is never reused. -/
theorem job_ids_never_collide :
    (∀ t1 c1 t2 c2 : Nat, c1 ≠ c2 → generateJobId t1 c1 ≠ generateJobId t2 c2) ∧
    (∀ (timestamps : Nat → Nat) (i j : Nat), i ≠ j →
      generateJobId (timestamps i) (i + 1) ≠ generateJobId (timestamps j) (j + 1)) := by
  have base : ∀ t1 c1 t2 c2 : Nat, c1 ≠ c2 →
      generateJobId t1 c1 ≠ generateJobId t2 c2 := by
    intro t1 c1 t2 c2 hne heq
    apply hne
    apply jsNatToString_data_inj
    rw [← trailingField_generateJobId t1 c1, ← trailingField_generateJobId t2 c2, heq]
  exact ⟨base, fun timestamps i j hne =>
    base (timestamps i) (i + 1) (timestamps j) (j + 1) (by omega)⟩

theorem job_ids_never_collide_witness :
    generateJobId 7 1 ≠ generateJobId 7 2 :=
  job_ids_never_collide.2 (fun _ => 7) 0 1 (by decide)

/-- C10: a synchronous invocation never mutates the job registry — when the
resolved async flag is `false` the dispatch returns the registry exactly as it
received it (and `executeTask` has no access to the registry at all); only the
async branch inserts an entry. -/
theorem sync_invocation_preserves_registry (toolAsync : Option Bool)
    (toolName : String) (serverAsync : Bool) (outcome : ExecaOutcome) (r : Registry)
    (jobId now : String) (tms : Int)
    (h : resolveToolAsyncFlag toolAsync serverAsync = false) :
    (invokeTool toolAsync toolName serverAsync outcome r jobId now tms).2 = r := by
  simp [invokeTool, h]

theorem sync_invocation_preserves_registry_witness :
    (invokeTool (some false) "t" true (ExecaOutcome.err "spawn failed")
        [("j", runningJob)] "j2" "s1" 10).2 = [("j", runningJob)] :=
  sync_invocation_preserves_registry (some false) "t" true
    (ExecaOutcome.err "spawn failed") [("j", runningJob)] "j2" "s1" 10 rfl

end DynamicMcp
